import Mathlib

/-!
Shallow embedding of the dtstockmangement inventory web application
(`src/main.py`, `src/models.py`): a FastAPI + SQLModel CRUD app over two
SQLite tables, `Item` and `User`.  The database is modelled as explicit
state (lists of rows); each route handler becomes a Lean function from the
database (and its form/path inputs) to a result and, for mutating
handlers, a new database.  Python/SQLAlchemy exceptions are modelled by an
explicit `Exc` type: `HTTPException` (catchable by the app's global
handler) and the uncaught ORM faults `NoResultFound` /
`MultipleResultsFound` (raised by `.one()`) and `IntegrityError` (primary
key conflict on insert).  `datetime.utcnow()` is modelled by passing the
current clock reading `now : Nat` into the handler.  The bcrypt
`CryptContext` is an external library, modelled as an abstract pair of
`hash` / `verify` functions.
-/

/-- Model of `models.Item`: SQLModel table. `id` is the integer primary key with
default `None` (so `none` before the row is persisted and the server
assigns it), `unit_price` and `last_modification` are nullable. -/
structure Item where
  id : Option Nat
  description : String
  quantity : Int
  unit_price : Option Int
  last_modification : Option Nat
deriving Repr, DecidableEq

/-- Model of `models.User`: SQLModel table. `id` is the optional integer primary
key; `email`, `is_superuser`, `is_active` default to `None`. -/
structure User where
  id : Option Nat
  email : Option String
  username : String
  password : String
  is_superuser : Option Bool
  is_active : Option Bool
deriving Repr, DecidableEq

/-- The SQLite database file: one `item` table and one `user` table, rows
in storage (insertion) order. -/
structure DB where
  items : List Item
  users : List User
deriving Repr, DecidableEq

/-- Exceptions a handler can raise: `httpException` is FastAPI's
`HTTPException` (intercepted by the app's global exception handler); the
other three are SQLAlchemy faults that no code in the app catches. -/
inductive Exc where
  | httpException (status_code : Nat) (detail : String)
  | noResultFound
  | multipleResultsFound
  | integrityError
deriving Repr, DecidableEq

/-- Template context dictionary: the union of the keys the handlers in
`main.py` put into their `TemplateResponse` contexts (besides the request
object itself).  A key absent from the dict is `none`. -/
structure Ctx where
  items : Option (List Item) := none
  item : Option (Option Item) := none
  username : Option String := none
  incorrect : Option Bool := none
  status_code : Option Nat := none
  detail : Option String := none
deriving Repr, DecidableEq

/-- A handler's successful result: a rendered template, a JSON-encoded
entity (the create endpoints return the ORM object), or a redirect. -/
inductive Response where
  | page (template : String) (ctx : Ctx)
  | itemValue (it : Item)
  | userValue (u : User)
  | redirect (url : String)
deriving Repr, DecidableEq

/-- The primary-key values present in the `item` table (persisted rows
always have one; `filterMap` drops a hypothetical `none`). -/
def itemIds (db : DB) : List Nat :=
  db.items.filterMap Item.id

/-- The primary-key values present in the `user` table. -/
def userIds (db : DB) : List Nat :=
  db.users.filterMap User.id

/-- SQLite's rowid assignment for an INTEGER PRIMARY KEY without an
explicit value: one more than the largest key in the table. -/
def nextItemId (db : DB) : Nat :=
  (itemIds db).foldr max 0 + 1

/-- SQLite's rowid assignment for the `user` table. -/
def nextUserId (db : DB) : Nat :=
  (userIds db).foldr max 0 + 1

/-- Insertion path `session.add(item); session.commit(); session.refresh(item)`
for a new `Item` row: with `id = None` the server assigns the next key and `refresh`
fills it in; with an explicit `id` the insert succeeds only if the key is
free, otherwise SQLite raises `IntegrityError` and the table is unchanged. -/
def insertItem (db : DB) (it : Item) : Except Exc Item × DB :=
  match it.id with
  | none =>
    let row := { it with id := some (nextItemId db) }
    (Except.ok row, { db with items := db.items ++ [row] })
  | some i =>
    if i ∈ itemIds db then (Except.error Exc.integrityError, db)
    else (Except.ok it, { db with items := db.items ++ [it] })

/-- Insertion path `session.add(user); session.commit(); session.refresh(user)`
for a new `User` row, with the same primary-key behaviour as `insertItem`. -/
def insertUser (db : DB) (u : User) : Except Exc User × DB :=
  match u.id with
  | none =>
    let row := { u with id := some (nextUserId db) }
    (Except.ok row, { db with users := db.users ++ [row] })
  | some i =>
    if i ∈ userIds db then (Except.error Exc.integrityError, db)
    else (Except.ok u, { db with users := db.users ++ [u] })

/-- Handler helper `read_items` (main.py:39-45): `select(Item).offset(skip).limit(limit)`
then raise `HTTPException(404, "No item found.")` when the page is empty.
Handlers call it with the defaults `skip = 0`, `limit = 10`. -/
def read_items (db : DB) (skip : Nat) (limit : Nat) : Except Exc (List Item) :=
  let items := (db.items.drop skip).take limit
  if items = [] then Except.error (Exc.httpException 404 "No item found.")
  else Except.ok items

/-- Global handler `http_exception_handler` (main.py:49-52): renders `error.html` with
the exception's status code and detail in the context. -/
def http_exception_handler (status_code : Nat) (detail : String) : Response :=
  Response.page "error.html" { status_code := some status_code, detail := some detail }

/-- The app layer around a handler: a raised `HTTPException` is
intercepted by `http_exception_handler`; every other exception
propagates unhandled. -/
def runApp (r : Except Exc Response) : Except Exc Response :=
  match r with
  | Except.error (Exc.httpException s d) => Except.ok (http_exception_handler s d)
  | r => r

/-- Query `select(...).one()` on the `item` table filtered by primary key:
raises `NoResultFound` on zero matches and `MultipleResultsFound` on more
than one. -/
def selectOne (db : DB) (item_id : Nat) : Except Exc Item :=
  match db.items.filter (fun it => it.id = some item_id) with
  | [] => Except.error Exc.noResultFound
  | [it] => Except.ok it
  | _ :: _ :: _ => Except.error Exc.multipleResultsFound

/-- Handler `home` (GET `/`, main.py:56-59): list the first page and render
`index.html`. -/
def home (db : DB) : Except Exc Response :=
  match read_items db 0 10 with
  | Except.error e => Except.error e
  | Except.ok items => Except.ok (Response.page "./index.html" { items := some items })

/-- Handler `create_item` (first POST `/create_item`, main.py:74-80): overwrite
`last_modification` with the current UTC time (`now`), persist, refresh,
and return the row. -/
def create_item (db : DB) (item : Item) (now : Nat) : Except Exc Item × DB :=
  insertItem db { item with last_modification := some now }

/-- Handler `create_user` (POST `/create_user`, main.py:84-90): replace the
submitted password with its bcrypt hash, persist, refresh, return the row.
The hash function is the external `pwd_context.hash`. -/
def create_user (hash : String → String) (db : DB) (user : User) : Except Exc User × DB :=
  insertUser db { user with password := hash user.password }

/-- Handler `get_user` (POST `/signin`, main.py:93-109): `.first()` user by
username; missing user or failed `pwd_context.verify` re-renders
`login.html` with `incorrect = True`; otherwise `read_items` and render
`index_admin.html` with the username and the items. -/
def get_user (verify : String → String → Bool) (db : DB)
    (username : String) (password : String) : Except Exc Response :=
  match db.users.find? (fun u => u.username = username) with
  | none => Except.ok (Response.page "./login.html" { incorrect := some true })
  | some user =>
    if verify password user.password then
      match read_items db 0 10 with
      | Except.error e => Except.error e
      | Except.ok items =>
        Except.ok (Response.page "./index_admin.html"
          { username := some username, items := some items })
    else Except.ok (Response.page "./login.html" { incorrect := some true })

/-- Handler `edit_item` (GET the item route, main.py:113-119): `read_items`
first, then `.first()` the item by id (which yields `None`, not an
exception, when absent) and render `edit_item.html` with both. -/
def edit_item (db : DB) (item_id : Nat) : Except Exc Response :=
  match read_items db 0 10 with
  | Except.error e => Except.error e
  | Except.ok items =>
    Except.ok (Response.page "./edit_item.html"
      { item := some (db.items.find? (fun it => it.id = some item_id)),
        items := some items })

/-- Handler `update_item` (PUT the update route, main.py:127-142):
`.one()` the item by id, set its quantity to the submitted `qty`, commit,
re-list, and render `item_edited.html` (for an HX-Request client) or
`edit_item.html`.  The pair's second component is the table state after
the handler: the quantity update is committed before the re-listing, so it
survives even when `read_items` then raises. -/
def update_item (db : DB) (item_id : Nat) (qty : Int) (hx_request : Option String) :
    Except Exc Response × DB :=
  match selectOne db item_id with
  | Except.error e => (Except.error e, db)
  | Except.ok found =>
    let item := { found with quantity := qty }
    let db' := { db with
      items := db.items.map (fun it => if it.id = some item_id then item else it) }
    (match read_items db' 0 10 with
     | Except.error e => Except.error e
     | Except.ok items =>
       if hx_request.isSome then
         Except.ok (Response.page "./item_edited.html"
           { item := some (some item), items := some items })
       else
         Except.ok (Response.page "./edit_item.html"
           { item := some (some item), items := some items }), db')

/-- Python truthiness of an ORM row object: instances are always truthy,
so the `if not item` guard in `delete_item` can never fire on a row
returned by `.one()`. -/
def itemFalsy (_ : Item) : Bool := false

/-- Handler `delete_item` (DELETE the delete route, main.py:145-155):
`.one()` the item by id (raising `NoResultFound` when absent), a dead
`if not item` 404 guard, delete the row, commit, and render
`index_admin.html` with the re-listed items. -/
def delete_item (db : DB) (item_id : Nat) : Except Exc Response × DB :=
  match selectOne db item_id with
  | Except.error e => (Except.error e, db)
  | Except.ok found =>
    if itemFalsy found then
      (Except.error (Exc.httpException 404 "Item not found"), db)
    else
      let db' := { db with items := db.items.filter (fun it => ¬ it.id = some item_id) }
      (match read_items db' 0 10 with
       | Except.error e => Except.error e
       | Except.ok items =>
         Except.ok (Response.page "./index_admin.html" { items := some items }), db')

/-- Handler `add_item` (second, duplicate POST `/create_item`, main.py:158-163):
persist, refresh and return the row, without touching `last_modification`. -/
def add_item (db : DB) (item : Item) : Except Exc Item × DB :=
  insertItem db item

/-! ### Sample rows and stores, used to evaluate the handlers concretely -/

/-- A persisted sample item row. -/
def itemA : Item :=
  { id := some 1, description := "widget", quantity := 5,
    unit_price := some 3, last_modification := some 100 }

/-- A second persisted sample item row. -/
def itemB : Item :=
  { id := some 2, description := "gadget", quantity := 7,
    unit_price := none, last_modification := none }

/-- An item creation payload as a client submits it: no id yet. -/
def payloadP : Item :=
  { id := none, description := "bolt", quantity := 1,
    unit_price := none, last_modification := some 7 }

/-- Concrete stand-in for the external bcrypt hash, used only to evaluate
the handlers on concrete inputs: prefix a digest marker. -/
def hashModel (p : String) : String := "$2b$" ++ p

/-- Concrete stand-in for the external bcrypt verify: re-hash and compare. -/
def verifyModel (p : String) (digest : String) : Bool := hashModel p = digest

/-- A persisted sample user row (password stored as a digest). -/
def userA : User :=
  { id := some 1, email := none, username := "admin1",
    password := hashModel "Aa1!aaaa", is_superuser := some true, is_active := some true }

/-- The empty store. -/
def dbEmpty : DB := { items := [], users := [] }

/-- A store holding the single item `itemA`. -/
def dbOne : DB := { items := [itemA], users := [] }

/-- A store holding one user and no items. -/
def dbUserOnly : DB := { items := [], users := [userA] }

/-- A store holding one user and one item. -/
def dbUserItem : DB := { items := [itemA], users := [userA] }

/-! ### Claim C1 -/

/-- C1: for every skip and limit, `read_items` raises the 404
"No item found." `HTTPException` exactly when the selected page
(`drop skip` then `take limit`) is empty, and a successful result is
never the empty sequence. -/
theorem read_items_not_found_iff_empty_page (db : DB) (skip : Nat) (limit : Nat) :
    (read_items db skip limit
        = Except.error (Exc.httpException 404 "No item found.") ↔
      (db.items.drop skip).take limit = []) ∧
    (∀ l, read_items db skip limit = Except.ok l → l ≠ []) := by
  constructor
  · constructor
    · intro h
      by_contra hne
      simp only [read_items, if_neg hne] at h
      exact Except.noConfusion h
    · intro h
      simp only [read_items, if_pos h]
  · intro l hl hnil
    by_cases h : (db.items.drop skip).take limit = []
    · simp only [read_items, if_pos h] at hl
      exact Except.noConfusion hl
    · simp only [read_items, if_neg h] at hl
      injection hl with h2
      exact h (h2 ▸ hnil)

/-- Witness for C1: on the one-item store, listing the first page succeeds
with the nonempty page `[itemA]`. -/
theorem read_items_not_found_iff_empty_page_witness : ([itemA] : List Item) ≠ [] :=
  (read_items_not_found_iff_empty_page dbOne 0 10).2 [itemA] rfl

/-! ### Claim C2 -/

/-- C2 (code bug): deleting an id absent from the store does not yield the
structured 404 "Item not found" page: `.one()` raises `NoResultFound`,
which the global `HTTPException` handler does not intercept, so the fault
propagates unhandled (the `if not item` 404 guard on main.py:149-150 is
dead code) and the store is left unchanged. -/
theorem delete_item_absent_unhandled_fault :
    (delete_item dbOne 2).1 = Except.error Exc.noResultFound ∧
    runApp (delete_item dbOne 2).1 = Except.error Exc.noResultFound ∧
    (delete_item dbOne 2).2 = dbOne ∧
    Except.error Exc.noResultFound
      ≠ (Except.ok (http_exception_handler 404 "Item not found")
          : Except Exc Response) :=
  ⟨rfl, rfl, rfl, fun h => by cases h⟩

/-! ### Facts about `selectOne` -/

/-- A successful `.one()` result is a member of the table, carries the
queried id, and is the unique row matching it. -/
theorem selectOne_ok_facts (db : DB) (item_id : Nat) (it : Item)
    (h : selectOne db item_id = Except.ok it) :
    it ∈ db.items ∧ it.id = some item_id ∧
    db.items.filter (fun i => i.id = some item_id) = [it] := by
  unfold selectOne at h
  cases hfil : db.items.filter (fun i => i.id = some item_id) with
  | nil => rw [hfil] at h; exact Except.noConfusion h
  | cons a t =>
    cases t with
    | nil =>
      rw [hfil] at h
      injection h with h2
      subst h2
      have ha : a ∈ db.items.filter (fun i => i.id = some item_id) := by
        rw [hfil]; exact List.mem_singleton.mpr rfl
      have hf := List.mem_filter.mp ha
      exact ⟨hf.1, of_decide_eq_true hf.2, rfl⟩
    | cons b t' => rw [hfil] at h; exact Except.noConfusion h

/-- Rewriting `.one()` from the unique-match hypothesis. -/
theorem selectOne_of_filter_eq (db : DB) (item_id : Nat) (it : Item)
    (hone : db.items.filter (fun i => i.id = some item_id) = [it]) :
    selectOne db item_id = Except.ok it := by
  unfold selectOne
  rw [hone]

/-- With zero matching rows, `.one()` raises `NoResultFound`. -/
theorem selectOne_of_filter_nil (db : DB) (item_id : Nat)
    (hnone : db.items.filter (fun i => i.id = some item_id) = []) :
    selectOne db item_id = Except.error Exc.noResultFound := by
  unfold selectOne
  rw [hnone]

/-- With at least two matching rows, `.one()` raises
`MultipleResultsFound`. -/
theorem selectOne_of_filter_many (db : DB) (item_id : Nat) (a b : Item) (rest : List Item)
    (hmany : db.items.filter (fun i => i.id = some item_id) = a :: b :: rest) :
    selectOne db item_id = Except.error Exc.multipleResultsFound := by
  unfold selectOne
  rw [hmany]

/-! ### Claim C3 -/

/-- C3: if the id matches exactly one row, PUT update sets that row's
quantity to the submitted value and persists it — the updated row is in
the committed table and a subsequent full listing returns it; if the id
matches zero rows the handler fails with `NoResultFound`, and with
multiple rows it fails with `MultipleResultsFound` (both cardinality
faults of `.one()`). -/
theorem update_item_updates_quantity (db : DB) (item_id : Nat) (qty : Int)
    (hx : Option String) :
    (∀ it, db.items.filter (fun i => i.id = some item_id) = [it] →
      { it with quantity := qty } ∈ (update_item db item_id qty hx).2.items ∧
      read_items (update_item db item_id qty hx).2 0
          (update_item db item_id qty hx).2.items.length
        = Except.ok (update_item db item_id qty hx).2.items) ∧
    (db.items.filter (fun i => i.id = some item_id) = [] →
      (update_item db item_id qty hx).1 = Except.error Exc.noResultFound) ∧
    (∀ a b rest, db.items.filter (fun i => i.id = some item_id) = a :: b :: rest →
      (update_item db item_id qty hx).1 = Except.error Exc.multipleResultsFound) := by
  refine ⟨?_, ?_, ?_⟩
  · intro it hone
    have hsel := selectOne_of_filter_eq db item_id it hone
    have hmem : it ∈ db.items := by
      have : it ∈ db.items.filter (fun i => i.id = some item_id) := by
        rw [hone]; exact List.mem_singleton.mpr rfl
      exact (List.mem_filter.mp this).1
    have hid : it.id = some item_id := by
      have : it ∈ db.items.filter (fun i => i.id = some item_id) := by
        rw [hone]; exact List.mem_singleton.mpr rfl
      exact of_decide_eq_true (List.mem_filter.mp this).2
    have hdb2 : (update_item db item_id qty hx).2 = { db with
        items := db.items.map (fun i => if i.id = some item_id
          then { it with quantity := qty } else i) } := by
      unfold update_item
      rw [hsel]
    have hmem' : { it with quantity := qty } ∈ (update_item db item_id qty hx).2.items := by
      rw [hdb2]
      exact List.mem_map.mpr ⟨it, hmem, by rw [if_pos hid]⟩
    refine ⟨hmem', ?_⟩
    have hne : (update_item db item_id qty hx).2.items ≠ [] :=
      List.ne_nil_of_mem hmem'
    unfold read_items
    rw [List.drop_zero, List.take_length, if_neg hne]
  · intro hnil
    have hsel := selectOne_of_filter_nil db item_id hnil
    unfold update_item
    rw [hsel]
  · intro a b rest hmany
    have hsel := selectOne_of_filter_many db item_id a b rest hmany
    unfold update_item
    rw [hsel]

/-- Witness for C3: updating item 1 of the one-item store to quantity 9
commits the new quantity, visible in a subsequent full listing. -/
theorem update_item_updates_quantity_witness :
    { itemA with quantity := 9 } ∈ (update_item dbOne 1 9 none).2.items ∧
    read_items (update_item dbOne 1 9 none).2 0
        (update_item dbOne 1 9 none).2.items.length
      = Except.ok (update_item dbOne 1 9 none).2.items :=
  (update_item_updates_quantity dbOne 1 9 none).1 itemA rfl

/-- An error result of `read_items` can only be the 404 "No item found."
`HTTPException`. -/
theorem read_items_error_is_404 (db : DB) (skip : Nat) (limit : Nat) (e : Exc)
    (h : read_items db skip limit = Except.error e) :
    e = Exc.httpException 404 "No item found." := by
  unfold read_items at h
  by_cases hc : (db.items.drop skip).take limit = []
  · rw [if_pos hc] at h
    injection h with h2
    exact h2.symm
  · rw [if_neg hc] at h
    exact Except.noConfusion h

/-- Listing the first page of a store whose first ten items are not all
absent succeeds with exactly those items. -/
theorem read_items_first_page (db : DB) (hne : db.items.take 10 ≠ []) :
    read_items db 0 10 = Except.ok (db.items.take 10) := by
  unfold read_items
  rw [List.drop_zero, if_neg hne]

/-! ### Claim C4 -/

/-- C4: the first POST create handler overwrites any client-supplied
`last_modification` with the server's current UTC time `now` before
persisting; the returned, refreshed row carries a non-null,
server-assigned id, and its modification timestamp is no earlier than any
time bound below `now` (in particular the request's start). -/
theorem create_item_stamps_now (db : DB) (payload : Item) (now : Nat)
    (hid : payload.id = none) :
    ∃ row, create_item db payload now
        = (Except.ok row, { db with items := db.items ++ [row] }) ∧
      row.last_modification = some now ∧
      row.id = some (nextItemId db) ∧
      row.id.isSome = true ∧
      (∀ lm, create_item db { payload with last_modification := lm } now
        = create_item db payload now) ∧
      (∀ t0 : Nat, t0 ≤ now → ∀ v, row.last_modification = some v → t0 ≤ v) := by
  obtain ⟨pid, pdesc, pqty, pprice, plm⟩ := payload
  have hid' : pid = none := hid
  subst hid'
  refine ⟨_, rfl, rfl, rfl, rfl, fun lm => rfl, ?_⟩
  intro t0 ht v hv
  injection hv with h2
  exact h2 ▸ ht

/-- Witness for C4: creating `payloadP` (which carries a stale client
timestamp 7) at server time 100 stores and returns timestamp 100 and the
fresh id. -/
theorem create_item_stamps_now_witness :
    ∃ row, create_item dbEmpty payloadP 100
        = (Except.ok row, { dbEmpty with items := dbEmpty.items ++ [row] }) ∧
      row.last_modification = some 100 ∧
      row.id = some (nextItemId dbEmpty) ∧
      row.id.isSome = true ∧
      (∀ lm, create_item dbEmpty { payloadP with last_modification := lm } 100
        = create_item dbEmpty payloadP 100) ∧
      (∀ t0 : Nat, t0 ≤ 100 → ∀ v, row.last_modification = some v → t0 ≤ v) :=
  create_item_stamps_now dbEmpty payloadP 100 rfl

/-! ### Claim C5 -/

/-- Discriminator asking whether an app-level outcome is a rendering of
the admin listing template `index_admin.html`. -/
def rendersAdmin : Except Exc Response → Bool
  | Except.ok (Response.page t _) => t = "./index_admin.html"
  | _ => false

/-- C5 counterexample: on a store with one registered user and zero
items, signing in with the correct credentials renders the 404 error page
(the `read_items` `HTTPException` caught by the global handler), not the
admin listing containing the username. -/
theorem get_user_correct_creds_empty_store :
    verifyModel "Aa1!aaaa" userA.password = true ∧
    dbUserOnly.users.find? (fun u => u.username = "admin1") = some userA ∧
    runApp (get_user verifyModel dbUserOnly "admin1" "Aa1!aaaa")
      = Except.ok (Response.page "error.html"
          { status_code := some 404, detail := some "No item found." }) ∧
    rendersAdmin (runApp (get_user verifyModel dbUserOnly "admin1" "Aa1!aaaa"))
      = false :=
  ⟨rfl, rfl, rfl, rfl⟩

/-- C5 (amended): an unknown username or a failed hash verification
re-renders the login view with the `incorrect` flag (never an exception);
correct credentials render the admin listing containing the submitted
username provided the first page of items is non-empty (on an empty store
`read_items` raises the 404 `HTTPException` instead, which the global
handler turns into the error page); no unhandled fault is ever raised. -/
theorem get_user_cases (verify : String → String → Bool) (db : DB)
    (username : String) (password : String) :
    (db.users.find? (fun u => u.username = username) = none →
      get_user verify db username password
        = Except.ok (Response.page "./login.html" { incorrect := some true })) ∧
    (∀ u, db.users.find? (fun r => r.username = username) = some u →
      verify password u.password = false →
      get_user verify db username password
        = Except.ok (Response.page "./login.html" { incorrect := some true })) ∧
    (∀ u, db.users.find? (fun r => r.username = username) = some u →
      verify password u.password = true →
      db.items.take 10 ≠ [] →
      get_user verify db username password
        = Except.ok (Response.page "./index_admin.html"
            { username := some username, items := some (db.items.take 10) })) ∧
    (∀ e, get_user verify db username password = Except.error e →
      e = Exc.httpException 404 "No item found." ∧
      runApp (get_user verify db username password)
        = Except.ok (http_exception_handler 404 "No item found.")) := by
  refine ⟨?_, ?_, ?_, ?_⟩
  · intro h
    unfold get_user
    rw [h]
  · intro u hu hv
    unfold get_user
    simp only [hu, hv, Bool.false_eq_true, if_false, ite_false]
  · intro u hu hv hne
    unfold get_user
    simp only [hu, hv, if_true, ite_true, read_items_first_page db hne]
  · intro e he
    unfold get_user at he
    cases hfind : db.users.find? (fun r => r.username = username) with
    | none =>
      rw [hfind] at he
      exact Except.noConfusion he
    | some u =>
      rw [hfind] at he
      cases hv : verify password u.password with
      | false =>
        simp only [hv, Bool.false_eq_true, if_false, ite_false] at he
        exact Except.noConfusion he
      | true =>
        simp only [hv, if_true, ite_true] at he
        cases hread : read_items db 0 10 with
        | error e' =>
          rw [hread] at he
          injection he with h2
          have h404 := read_items_error_is_404 db 0 10 e' hread
          subst h2
          refine ⟨h404, ?_⟩
          unfold get_user
          rw [hfind]
          simp only [hv, if_true, ite_true, hread, h404]
          rfl
        | ok items =>
          rw [hread] at he
          exact Except.noConfusion he

/-- Witness for C5 (amended): correct credentials on a store with one
item render the admin listing with the username. -/
theorem get_user_cases_witness :
    get_user verifyModel dbUserItem "admin1" "Aa1!aaaa"
      = Except.ok (Response.page "./index_admin.html"
          { username := some "admin1", items := some (dbUserItem.items.take 10) }) :=
  (get_user_cases verifyModel dbUserItem "admin1" "Aa1!aaaa").2.2.1 userA rfl rfl
    (fun h => List.noConfusion h)

/-! ### Claim C6 -/

/-- Discriminator asking whether an outcome is a raised fault. -/
def isFault : Except Exc Response → Bool
  | Except.error _ => true
  | Except.ok _ => false

/-- C6 counterexample: GET of item 2 on a store holding only item 1 does
not fail: `.first()` yields `None` and the edit view is rendered with a
null item, so there is no unhandled lookup failure. -/
theorem edit_item_absent_no_fault :
    edit_item dbOne 2
      = Except.ok (Response.page "./edit_item.html"
          { item := some none, items := some [itemA] }) ∧
    isFault (edit_item dbOne 2) = false :=
  ⟨rfl, rfl⟩

/-- C6 (amended): for every id absent from the store, while at least one
item exists on the first page, GET of that item renders the edit view with
a null item instead of failing. -/
theorem edit_item_absent_renders_null (db : DB) (item_id : Nat)
    (habsent : db.items.find? (fun it => it.id = some item_id) = none)
    (hne : db.items.take 10 ≠ []) :
    edit_item db item_id
      = Except.ok (Response.page "./edit_item.html"
          { item := some none, items := some (db.items.take 10) }) := by
  unfold edit_item
  rw [read_items_first_page db hne, habsent]

/-- Witness for C6 (amended): the one-item store, queried for the absent
id 2. -/
theorem edit_item_absent_renders_null_witness :
    edit_item dbOne 2
      = Except.ok (Response.page "./edit_item.html"
          { item := some none, items := some (dbOne.items.take 10) }) :=
  edit_item_absent_renders_null dbOne 2 rfl (fun h => List.noConfusion h)

/-! ### Claim C7 -/

/-- C7: user creation replaces the submitted plaintext password with its
hash digest before persisting, so the stored row's password field is the
digest — never the plaintext, whenever the digest differs from it, as
bcrypt digests always do — and the handler echoes the full stored row,
hash included. -/
theorem create_user_stores_hash (hash : String → String) (db : DB) (payload : User)
    (hid : payload.id = none) :
    ∃ u, create_user hash db payload
        = (Except.ok u, { db with users := db.users ++ [u] }) ∧
      u.password = hash payload.password ∧
      u = { payload with
            password := hash payload.password,
            id := some (nextUserId db) } ∧
      (hash payload.password ≠ payload.password → u.password ≠ payload.password) := by
  obtain ⟨pid, pe, pun, ppw, psu, pa⟩ := payload
  have hid' : pid = none := hid
  subst hid'
  exact ⟨_, rfl, rfl, rfl, fun h => h⟩

/-- A user creation payload with a plaintext password satisfying the
declared complexity policy. -/
def payloadU : User :=
  { id := none, email := some "a@b.co", username := "user1",
    password := "Aa1!aaaa", is_superuser := none, is_active := none }

/-- Witness for C7: creating `payloadU` against the concrete digest model
stores and echoes the digest, not the plaintext. -/
theorem create_user_stores_hash_witness :
    ∃ u, create_user hashModel dbEmpty payloadU
        = (Except.ok u, { dbEmpty with users := dbEmpty.users ++ [u] }) ∧
      u.password = hashModel payloadU.password ∧
      u = { payloadU with
            password := hashModel payloadU.password,
            id := some (nextUserId dbEmpty) } ∧
      (hashModel payloadU.password ≠ payloadU.password →
        u.password ≠ payloadU.password) :=
  create_user_stores_hash hashModel dbEmpty payloadU rfl

/-! ### Claim C8 -/

/-- C8: the two POST create handlers agree up to timestamp stamping: the
first handler equals the duplicate handler applied to the payload with
`last_modification` stamped to `now`, and the duplicate handler persists
the payload's own `last_modification` untouched while appending the row
exactly as the first one does. -/
theorem create_item_eq_add_item_stamped (db : DB) (payload : Item) (now : Nat) :
    create_item db payload now
      = add_item db { payload with last_modification := some now } ∧
    (∀ row db', add_item db payload = (Except.ok row, db') →
      row.last_modification = payload.last_modification ∧
      db' = { db with items := db.items ++ [row] }) := by
  refine ⟨rfl, ?_⟩
  intro row db' h
  obtain ⟨pid, pdesc, pqty, pprice, plm⟩ := payload
  simp only [add_item, insertItem] at h
  cases pid with
  | none =>
    injection h with h1 h2
    injection h1 with h3
    subst h3
    subst h2
    exact ⟨rfl, rfl⟩
  | some i =>
    by_cases hmem : i ∈ itemIds db
    · simp only [if_pos hmem] at h
      injection h with h1 h2
      exact Except.noConfusion h1
    · simp only [if_neg hmem] at h
      injection h with h1 h2
      injection h1 with h3
      subst h3
      subst h2
      exact ⟨rfl, rfl⟩

/-- Witness for C8: the two handlers on the concrete payload `payloadP`
at server time 100, and the duplicate handler's committed row keeping the
client timestamp 7. -/
theorem create_item_eq_add_item_stamped_witness :
    create_item dbEmpty payloadP 100
      = add_item dbEmpty { payloadP with last_modification := some 100 } ∧
    (({ payloadP with id := some (nextItemId dbEmpty) } : Item).last_modification
        = payloadP.last_modification ∧
      ({ dbEmpty with
          items := [{ payloadP with id := some (nextItemId dbEmpty) }] } : DB)
        = { dbEmpty with
            items := dbEmpty.items ++ [{ payloadP with id := some (nextItemId dbEmpty) }] }) :=
  ⟨(create_item_eq_add_item_stamped dbEmpty payloadP 100).1,
   (create_item_eq_add_item_stamped dbEmpty payloadP 100).2
     { payloadP with id := some (nextItemId dbEmpty) }
     { dbEmpty with items := [{ payloadP with id := some (nextItemId dbEmpty) }] } rfl⟩

/-! ### Claim C9 -/

/-- Identifier invariant (spec section 3): every persisted row carries an
id and the ids within each table are pairwise distinct. -/
def dbInv (db : DB) : Prop :=
  (∀ it ∈ db.items, it.id.isSome = true) ∧
  (∀ u ∈ db.users, u.id.isSome = true) ∧
  (itemIds db).Nodup ∧ (userIds db).Nodup

/-- Every member of a list of naturals is bounded by its maximum fold. -/
theorem le_foldr_max (x : Nat) (l : List Nat) (h : x ∈ l) : x ≤ l.foldr max 0 := by
  induction l with
  | nil => cases h
  | cons a t ih =>
    rcases List.mem_cons.mp h with h1 | h2
    · exact h1 ▸ Nat.le_max_left a (t.foldr max 0)
    · exact Nat.le_trans (ih h2) (Nat.le_max_right a (t.foldr max 0))

/-- The freshly assigned item key is not already present. -/
theorem nextItemId_not_mem (db : DB) : nextItemId db ∉ itemIds db := by
  intro h
  have hle := le_foldr_max _ _ h
  unfold nextItemId at hle
  omega

/-- The freshly assigned user key is not already present. -/
theorem nextUserId_not_mem (db : DB) : nextUserId db ∉ userIds db := by
  intro h
  have hle := le_foldr_max _ _ h
  unfold nextUserId at hle
  omega

/-- Appending one fresh key keeps the key list nodup. -/
theorem nodup_append_fresh (l : List Nat) (x : Nat) (hl : l.Nodup) (hx : x ∉ l) :
    (l ++ [x]).Nodup :=
  List.nodup_append.mpr
    ⟨hl, List.nodup_singleton x, fun _ ha hb => hx ((List.mem_singleton.mp hb) ▸ ha)⟩

/-- Key list of the item table after appending one keyed row. -/
theorem itemIds_append_row (db : DB) (row : Item) (n : Nat) (h : row.id = some n) :
    itemIds { db with items := db.items ++ [row] } = itemIds db ++ [n] := by
  unfold itemIds
  simp [List.filterMap_append, h]

/-- Key list of the user table after appending one keyed row. -/
theorem userIds_append_row (db : DB) (row : User) (n : Nat) (h : row.id = some n) :
    userIds { db with users := db.users ++ [row] } = userIds db ++ [n] := by
  unfold userIds
  simp [List.filterMap_append, h]

/-- Appending one item row with a fresh key preserves the invariant. -/
theorem dbInv_append_item (db : DB) (row : Item) (n : Nat) (hrow : row.id = some n)
    (hfresh : n ∉ itemIds db) (hinv : dbInv db) :
    dbInv { db with items := db.items ++ [row] } := by
  obtain ⟨hi, hu, hni, hnu⟩ := hinv
  refine ⟨?_, hu, ?_, hnu⟩
  · intro x hx
    rcases List.mem_append.mp hx with h1 | h2
    · exact hi x h1
    · rw [List.mem_singleton.mp h2, hrow]
      rfl
  · rw [itemIds_append_row db row n hrow]
    exact nodup_append_fresh _ _ hni hfresh

/-- Appending one user row with a fresh key preserves the invariant. -/
theorem dbInv_append_user (db : DB) (row : User) (n : Nat) (hrow : row.id = some n)
    (hfresh : n ∉ userIds db) (hinv : dbInv db) :
    dbInv { db with users := db.users ++ [row] } := by
  obtain ⟨hi, hu, hni, hnu⟩ := hinv
  refine ⟨hi, ?_, hni, ?_⟩
  · intro x hx
    rcases List.mem_append.mp hx with h1 | h2
    · exact hu x h1
    · rw [List.mem_singleton.mp h2, hrow]
      rfl
  · rw [userIds_append_row db row n hrow]
    exact nodup_append_fresh _ _ hnu hfresh

/-- Item insertion preserves the identifier invariant, whichever branch
(fresh server key, explicit free key, or rejected duplicate) is taken. -/
theorem insertItem_inv (db : DB) (it : Item) (hinv : dbInv db) :
    dbInv (insertItem db it).2 := by
  unfold insertItem
  cases hid : it.id with
  | none =>
    exact dbInv_append_item db _ (nextItemId db) rfl (nextItemId_not_mem db) hinv
  | some i =>
    by_cases hmem : i ∈ itemIds db
    · simp only [if_pos hmem]
      exact hinv
    · simp only [if_neg hmem]
      exact dbInv_append_item db it i hid hmem hinv

/-- User insertion preserves the identifier invariant. -/
theorem insertUser_inv (db : DB) (u : User) (hinv : dbInv db) :
    dbInv (insertUser db u).2 := by
  unfold insertUser
  cases hid : u.id with
  | none =>
    exact dbInv_append_user db _ (nextUserId db) rfl (nextUserId_not_mem db) hinv
  | some i =>
    by_cases hmem : i ∈ userIds db
    · simp only [if_pos hmem]
      exact hinv
    · simp only [if_neg hmem]
      exact dbInv_append_user db u i hid hmem hinv

/-- The key list is computed from the id column alone. -/
theorem filterMap_id_of_map_eq (l l' : List Item)
    (h : l'.map Item.id = l.map Item.id) :
    l'.filterMap Item.id = l.filterMap Item.id := by
  have h1 : (l'.map Item.id).filterMap id = (l.map Item.id).filterMap id := by
    rw [h]
  rw [List.filterMap_map, List.filterMap_map] at h1
  exact h1

/-- A table change preserving the id column row-for-row (and leaving the
user table alone) preserves the identifier invariant. -/
theorem dbInv_of_map_id_eq (db db' : DB)
    (hitems : db'.items.map Item.id = db.items.map Item.id)
    (husers : db'.users = db.users) (hinv : dbInv db) : dbInv db' := by
  obtain ⟨hi, hu, hni, hnu⟩ := hinv
  refine ⟨?_, ?_, ?_, ?_⟩
  · intro x hx
    have hmm : x.id ∈ db.items.map Item.id := by
      rw [← hitems]
      exact List.mem_map.mpr ⟨x, hx, rfl⟩
    rcases List.mem_map.mp hmm with ⟨y, hy, hyx⟩
    rw [← hyx]
    exact hi y hy
  · intro x hx
    rw [husers] at hx
    exact hu x hx
  · have h3 : itemIds db' = itemIds db :=
      filterMap_id_of_map_eq db.items db'.items hitems
    rw [h3]
    exact hni
  · have h4 : userIds db' = userIds db := by
      unfold userIds
      rw [husers]
    rw [h4]
    exact hnu

/-- The update handler preserves the item table's id column row-for-row
and leaves the user table unchanged. -/
theorem update_item_id_column (db : DB) (item_id : Nat) (qty : Int) (hx : Option String) :
    (update_item db item_id qty hx).2.items.map Item.id = db.items.map Item.id ∧
    (update_item db item_id qty hx).2.users = db.users := by
  cases hsel : selectOne db item_id with
  | error e =>
    have hdb2 : (update_item db item_id qty hx).2 = db := by
      unfold update_item
      rw [hsel]
    rw [hdb2]
    exact ⟨rfl, rfl⟩
  | ok found =>
    have hfacts := selectOne_ok_facts db item_id found hsel
    have hdb2 : (update_item db item_id qty hx).2 = { db with
        items := db.items.map (fun i => if i.id = some item_id
          then { found with quantity := qty } else i) } := by
      unfold update_item
      rw [hsel]
    rw [hdb2]
    refine ⟨?_, rfl⟩
    rw [List.map_map]
    apply List.map_congr_left
    intro a _
    show (if a.id = some item_id then { found with quantity := qty } else a).id = a.id
    by_cases hid : a.id = some item_id
    · rw [if_pos hid, hid]
      exact hfacts.2.1
    · rw [if_neg hid]

/-- Deleting all rows with a given key filters exactly that key out of
the key list. -/
theorem filterMap_id_filter_ne (l : List Item) (item_id : Nat) :
    (l.filter (fun it => ¬ it.id = some item_id)).filterMap Item.id
      = (l.filterMap Item.id).filter (fun i => ¬ i = item_id) := by
  induction l with
  | nil => rfl
  | cons a t ih =>
    cases ha : a.id with
    | none =>
      simpa [List.filter_cons, List.filterMap_cons, ha] using ih
    | some n =>
      by_cases hn : n = item_id
      · simpa [List.filter_cons, List.filterMap_cons, ha, hn] using ih
      · simpa [List.filter_cons, List.filterMap_cons, ha, hn] using ih

/-- The delete handler preserves the invariant, leaves the user table
unchanged, and — when the keyed row exists — removes exactly its key. -/
theorem delete_item_id_column (db : DB) (item_id : Nat) (hinv : dbInv db) :
    dbInv (delete_item db item_id).2 ∧
    (delete_item db item_id).2.users = db.users ∧
    (∀ found, selectOne db item_id = Except.ok found →
      itemIds (delete_item db item_id).2
        = (itemIds db).filter (fun i => ¬ i = item_id)) := by
  cases hsel : selectOne db item_id with
  | error e =>
    have hdb2 : (delete_item db item_id).2 = db := by
      unfold delete_item
      rw [hsel]
    rw [hdb2]
    refine ⟨hinv, rfl, ?_⟩
    intro found hf
    exact Except.noConfusion hf
  | ok found =>
    have hdb2 : (delete_item db item_id).2 = { db with
        items := db.items.filter (fun it => ¬ it.id = some item_id) } := by
      unfold delete_item
      rw [hsel]
      rfl
    obtain ⟨hi, hu, hni, hnu⟩ := hinv
    refine ⟨?_, ?_, ?_⟩
    · rw [hdb2]
      refine ⟨?_, hu, ?_, hnu⟩
      · intro x hx
        exact hi x (List.mem_of_mem_filter hx)
      · have hsub : List.Sublist
            ((db.items.filter (fun it => ¬ it.id = some item_id)).filterMap Item.id)
            (db.items.filterMap Item.id) :=
          (List.filter_sublist db.items).filterMap Item.id
        exact hni.sublist hsub
    · rw [hdb2]
    · intro found' _
      rw [hdb2]
      exact filterMap_id_filter_ne db.items item_id

/-- C9: every row's identifier is unique and immutable once persisted:
each mutating handler preserves the identifier invariant; the update
handler rewrites the item table keeping the id column unchanged
row-for-row (in particular the updated item keeps its id) and does not
touch the user table; the delete handler removes exactly the deleted
row's key and touches nothing else; the read-only handlers (listing,
sign-in, edit view) take the store as immutable input. -/
theorem ids_unique_and_immutable (db : DB) (hinv : dbInv db) :
    (∀ payload now, dbInv (create_item db payload now).2) ∧
    (∀ payload, dbInv (add_item db payload).2) ∧
    (∀ hash payload, dbInv (create_user hash db payload).2) ∧
    (∀ item_id qty hx,
      dbInv (update_item db item_id qty hx).2 ∧
      (update_item db item_id qty hx).2.items.map Item.id = db.items.map Item.id ∧
      (update_item db item_id qty hx).2.users = db.users) ∧
    (∀ item_id,
      dbInv (delete_item db item_id).2 ∧
      (delete_item db item_id).2.users = db.users ∧
      (∀ found, selectOne db item_id = Except.ok found →
        itemIds (delete_item db item_id).2
          = (itemIds db).filter (fun i => ¬ i = item_id))) := by
  refine ⟨?_, ?_, ?_, ?_, ?_⟩
  · intro payload now
    exact insertItem_inv db { payload with last_modification := some now } hinv
  · intro payload
    exact insertItem_inv db payload hinv
  · intro hash payload
    exact insertUser_inv db { payload with password := hash payload.password } hinv
  · intro item_id qty hx
    have hcol := update_item_id_column db item_id qty hx
    exact ⟨dbInv_of_map_id_eq db _ hcol.1 hcol.2 hinv, hcol.1, hcol.2⟩
  · intro item_id
    exact delete_item_id_column db item_id hinv

/-- Witness for C9: the identifier invariant holds on the one-item store
and is preserved by the quantity update, which keeps the id column. -/
theorem ids_unique_and_immutable_witness :
    dbInv (update_item dbOne 1 9 none).2 ∧
    (update_item dbOne 1 9 none).2.items.map Item.id = dbOne.items.map Item.id ∧
    (update_item dbOne 1 9 none).2.users = dbOne.users :=
  (ids_unique_and_immutable dbOne ⟨by decide, by decide, by decide, by decide⟩).2.2.2.1 1 9 none

/-! ### Claim C10 -/

/-- C10 (frame): when the id matches exactly one row, the update rewrites
the item table pointwise, changing only the matched row's quantity — the
row's id, description, unit price and modification timestamp keep their
prior values (no new timestamp is stamped on update) — every item row
with a different id is kept as-is, and the user table is untouched. -/
theorem update_item_frame (db : DB) (item_id : Nat) (qty : Int) (hx : Option String)
    (it : Item) (hone : db.items.filter (fun i => i.id = some item_id) = [it]) :
    (update_item db item_id qty hx).2.items
      = db.items.map (fun i => if i.id = some item_id
          then { i with quantity := qty } else i) ∧
    ({ it with quantity := qty }).id = it.id ∧
    ({ it with quantity := qty }).description = it.description ∧
    ({ it with quantity := qty }).unit_price = it.unit_price ∧
    ({ it with quantity := qty }).last_modification = it.last_modification ∧
    (update_item db item_id qty hx).2.users = db.users ∧
    (∀ i, i ∈ db.items → ¬ i.id = some item_id →
      i ∈ (update_item db item_id qty hx).2.items) := by
  have hsel := selectOne_of_filter_eq db item_id it hone
  have hdb2 : (update_item db item_id qty hx).2 = { db with
      items := db.items.map (fun i => if i.id = some item_id
        then { it with quantity := qty } else i) } := by
    unfold update_item
    rw [hsel]
  have hmapeq : db.items.map (fun i => if i.id = some item_id
        then { it with quantity := qty } else i)
      = db.items.map (fun i => if i.id = some item_id
        then { i with quantity := qty } else i) := by
    apply List.map_congr_left
    intro a ha
    by_cases hid : a.id = some item_id
    · rw [if_pos hid, if_pos hid]
      have haeq : a = it := by
        have hmf : a ∈ db.items.filter (fun i => i.id = some item_id) :=
          List.mem_filter.mpr ⟨ha, decide_eq_true hid⟩
        rw [hone] at hmf
        exact List.mem_singleton.mp hmf
      rw [haeq]
    · rw [if_neg hid, if_neg hid]
  refine ⟨by rw [hdb2]; exact hmapeq, rfl, rfl, rfl, rfl, by rw [hdb2], ?_⟩
  intro i hi hneq
  rw [hdb2]
  exact List.mem_map.mpr ⟨i, hi, if_neg hneq⟩

/-- Witness for C10: the frame condition evaluated on the one-item store,
updating item 1 to quantity 9. -/
theorem update_item_frame_witness :
    (update_item dbOne 1 9 none).2.items
      = dbOne.items.map (fun i => if i.id = some 1
          then { i with quantity := 9 } else i) ∧
    ({ itemA with quantity := 9 }).id = itemA.id ∧
    ({ itemA with quantity := 9 }).description = itemA.description ∧
    ({ itemA with quantity := 9 }).unit_price = itemA.unit_price ∧
    ({ itemA with quantity := 9 }).last_modification = itemA.last_modification ∧
    (update_item dbOne 1 9 none).2.users = dbOne.users ∧
    (∀ i, i ∈ dbOne.items → ¬ i.id = some 1 →
      i ∈ (update_item dbOne 1 9 none).2.items) :=
  update_item_frame dbOne 1 9 none itemA rfl
